import Mathlib

/-!
Shallow embedding of `s2e-env/s2e_env/commands/code_coverage/lcov.py`
(the line-coverage report generator), together with proofs about the
claims made by the specification of that file.

Python dictionaries are modelled as insertion-ordered association lists:
iteration order of a `dict` is insertion order, `d[k] = v` replaces the
value of an existing key in place (keeping its position) and otherwise
appends the new key at the end.  External collaborators (the filesystem,
the symbol resolver, the trace loader, the HTML renderer) are passed in
as function parameters.
-/

namespace LcovSpec

/-- Lookup in a Python dict modelled as an association list:
`dictGet? d k` is `d[k]` (first binding of `k`, `none` when absent). -/
def dictGet? {K V : Type} [DecidableEq K] : List (K × V) → K → Option V
  | [], _ => none
  | (k', v) :: d, k => if k' = k then some v else dictGet? d k

/-- Python `k in d`. -/
def dictContains {K V : Type} [DecidableEq K] (d : List (K × V)) (k : K) : Bool :=
  (dictGet? d k).isSome

/-- Python `d[k] = v`: replace in place when the key exists, otherwise
append at the end (insertion order). -/
def dictSet {K V : Type} [DecidableEq K] : List (K × V) → K → V → List (K × V)
  | [], k, v => [(k, v)]
  | (k', v') :: d, k, v => if k' = k then (k, v) :: d else (k', v') :: dictSet d k v

/-- `AddressCount`: a Python dict from instruction address to execution count. -/
abbrev AddressCount := List (Nat × Nat)

/-- `ModuleCoverage`: a Python dict from module path to its `AddressCount`. -/
abbrev ModuleCoverage := List (String × AddressCount)

/-- The `for addr, cnt in module_coverage.items()` loop body of
`_merge_coverage`: fold the items of `module_coverage` into `cov`,
adding counts for addresses already present and inserting new ones. -/
def mergeInto : AddressCount → List (Nat × Nat) → AddressCount
  | cov, [] => cov
  | cov, p :: rest =>
    mergeInto
      (match dictGet? cov p.1 with
       | some old => dictSet cov p.1 (old + p.2)
       | none => dictSet cov p.1 p.2)
      rest

/-- `_merge_coverage(coverage, module_name, module_coverage)`.

The source has no `return` after the insertion in the
`if module_name not in coverage:` branch, so after the insertion
`cov = coverage[module_name]` aliases `module_coverage` itself and the
subsequent loop merges the dict into itself.  Since Python reads each
item's count at iteration time (each key is visited exactly once and
only modified in its own step), the loop adds each original count to the
entry that starts out as that same dict; this is modelled by starting
the fold from `module_coverage` and folding the original items. -/
def mergeCoverage (coverage : ModuleCoverage) (moduleName : String)
    (moduleCoverage : AddressCount) : ModuleCoverage :=
  let coverage' :=
    if dictContains coverage moduleName then coverage
    else dictSet coverage moduleName moduleCoverage
  let cov := (dictGet? coverage' moduleName).getD []
  dictSet coverage' moduleName (mergeInto cov moduleCoverage)

/-- The inner loop of `_get_addr_coverage`:
`for byte in range(0, size): addr_counts[start_addr + byte] = 1`,
modelled with byte offset `n - 1` processed last. -/
def setRange (ac : AddressCount) (startAddr : Nat) : Nat → AddressCount
  | 0 => ac
  | n + 1 => dictSet (setRange ac startAddr n) (startAddr + n) 1

/-- The outer loop of `_get_addr_coverage` over one module's
`RawBlockEntry` triples `(start_addr, _, size)`. -/
def expandBlocks : AddressCount → List (Nat × Nat × Nat) → AddressCount
  | ac, [] => ac
  | ac, b :: rest => expandBlocks (setRange ac b.1 b.2.2) rest

/-- The per-module local `addr_counts` dict built by
`_get_addr_coverage`, starting from the empty dict `{}`. -/
def addrCountsOf (blocks : List (Nat × Nat × Nat)) : AddressCount :=
  expandBlocks [] blocks

/-- `_get_addr_coverage(directory, aggregated_coverage)` after the trace
loader has produced `tb_coverage_files`: fold every module's expanded
local dict into the aggregate via `_merge_coverage`. -/
def getAddrCoverage : List (String × List (Nat × Nat × Nat)) → ModuleCoverage → ModuleCoverage
  | [], agg => agg
  | m :: rest, agg => getAddrCoverage rest (mergeCoverage agg m.1 (addrCountsOf m.2))

/-- The inner `for line, count in file_line_info[src_file].items()` loop
of `_save_coverage_info`: the `DA:` lines in iteration order together
with the `num_non_zero_lines` and `num_instrumented_lines` counters. -/
def daLoop : List (Nat × Nat) → List String × Nat × Nat
  | [] => ([], 0, 0)
  | p :: rest =>
    (("DA:" ++ toString p.1 ++ "," ++ toString p.2) :: (daLoop rest).1,
     (if p.2 ≠ 0 then 1 else 0) + (daLoop rest).2.1,
     1 + (daLoop rest).2.2)

/-- The lines written for one (non-skipped) source file by
`_save_coverage_info`: `SF:`, the `DA:` lines, `LH:`, `LF:`,
`end_of_record`. -/
def fileRecordLines (srcFile : String) (lines : List (Nat × Nat)) : List String :=
  ("SF:" ++ srcFile) ::
    (daLoop lines).1 ++
    ["LH:" ++ toString (daLoop lines).2.1,
     "LF:" ++ toString (daLoop lines).2.2,
     "end_of_record"]

/-- The `for src_file in file_line_info` loop of `_save_coverage_info`:
first component the lines written to the file (after the initial `TN:`),
second component the warnings logged for skipped missing files. -/
def writerBody (onDisk : String → Bool) (ignoreMissingFiles : Bool) :
    List (String × List (Nat × Nat)) → List String × List String
  | [] => ([], [])
  | p :: rest =>
    if ignoreMissingFiles && !onDisk p.1 then
      ((writerBody onDisk ignoreMissingFiles rest).1,
       (p.1 ++ " does not exist, skipping") :: (writerBody onDisk ignoreMissingFiles rest).2)
    else
      (fileRecordLines p.1 p.2 ++ (writerBody onDisk ignoreMissingFiles rest).1,
       (writerBody onDisk ignoreMissingFiles rest).2)

/-- `_save_coverage_info(lcov_path, file_line_info, ignore_missing_files)`:
the full list of lines written (starting with `TN:`) and the warnings
logged.  The filesystem is abstracted by the `onDisk` predicate
(`os.path.exists`). -/
def saveCoverageFull (onDisk : String → Bool) (ignoreMissingFiles : Bool)
    (fileLineInfo : List (String × List (Nat × Nat))) : List String × List String :=
  ("TN:" :: (writerBody onDisk ignoreMissingFiles fileLineInfo).1,
   (writerBody onDisk ignoreMissingFiles fileLineInfo).2)

/-- Join lines with a trailing newline each, as the `f.write` calls do. -/
def strJoinNL : List String → String
  | [] => ""
  | l :: ls => l ++ "\n" ++ strJoinNL ls

/-- The text content written by `_save_coverage_info`. -/
def saveCoverageInfo (onDisk : String → Bool) (ignoreMissingFiles : Bool)
    (fileLineInfo : List (String × List (Nat × Nat))) : String :=
  strJoinNL (saveCoverageFull onDisk ignoreMissingFiles fileLineInfo).1

/-- Boolean list prefix test (used to count `SF:` record headers). -/
def isPfx : List Char → List Char → Bool
  | [], _ => true
  | _ :: _, [] => false
  | a :: as, b :: bs => a == b && isPfx as bs

/-- Python `str.split(c)` for a single-character separator, on the
character list of the string. -/
def splitOnChar (c : Char) : List Char → List (List Char)
  | [] => [[]]
  | x :: xs =>
    if x = c then [] :: splitOnChar c xs
    else
      match splitOnChar c xs with
      | [] => [[x]]
      | h :: t => (x :: h) :: t

/-- Python `s.split(c)`. -/
def pySplit (s : String) (c : Char) : List String :=
  (splitOnChar c s.data).map String.mk

/-- `os.path.basename`: the component after the last path separator. -/
def pyBasename (p : String) : String :=
  ((pySplit p '/').getLast?).getD ""

/-- Join a list of strings with a separator. -/
def joinSep (sep : String) : List String → String
  | [] => ""
  | [x] => x
  | x :: xs => x ++ sep ++ joinSep sep xs

/-- `os.path.dirname`: everything before the last path separator. -/
def pyDirname (p : String) : String :=
  joinSep "/" ((pySplit p '/').dropLast)

/-- `os.path.join` for the shapes occurring here: a relative second
component appended to a first component without trailing separator. -/
def pyJoin (a b : String) : String :=
  if a = "" then b else a ++ "/" ++ b

/-- Python `int(s)` on the decimal digit strings occurring in
run-directory names; `none` models a raised `ValueError`. -/
def parseNat? (cs : List Char) : Option Nat :=
  if cs ≠ [] ∧ cs.all (fun c => c.isDigit) then
    some (cs.foldl (fun n c => n * 10 + (c.toNat - 48)) 0)
  else none

/-- `int(index)` as used by `_get_output_folders`. -/
def pyInt? (s : String) : Option Nat := parseNat? s.data

/-- Python exceptions relevant to `_get_output_folders`: the tuple
unpacking of `base.split('-')` and `int(index)` raise `ValueError`.
`configurationError` stands for the `ConfigurationError` named by the
specification, which does not occur anywhere in the code. -/
inductive PyErr
  | valueError
  | configurationError
deriving DecidableEq

/-- The `for i in range(0, last_n_outputs)` loop of
`_get_output_folders`: append each candidate `s2e-out-<index - i>` that
exists on disk to `ret`. -/
def lastNLoop (onDisk : String → Bool) (dirname : String) (idx : Int)
    (ret : List String) : List Nat → List String
  | [] => ret
  | i :: rest =>
    lastNLoop onDisk dirname idx
      (if onDisk (pyJoin dirname ("s2e-out-" ++ toString (idx - (i : Int)))) then
        ret ++ [pyJoin dirname ("s2e-out-" ++ toString (idx - (i : Int)))]
      else ret) rest

/-- `LineCoverage._get_output_folders`.  `s2eLastReal` is
`os.path.realpath(self.project_path('s2e-last'))`; `projectS2eLast` is
the unresolved `self.project_path('s2e-last')` used as default;
`onDisk` is `os.path.exists`. -/
def getOutputFolders (onDisk : String → Bool) (aggregateOutputs : Nat)
    (s2eOutDir : List String) (s2eLastReal projectS2eLast : String) :
    Except PyErr (List String) :=
  if aggregateOutputs ≠ 0 then
    match pySplit (pyBasename s2eLastReal) '-' with
    | [_, _, index] =>
      match pyInt? index with
      | some idx =>
        .ok (lastNLoop onDisk (pyDirname s2eLastReal) (idx : Int) []
          (List.range aggregateOutputs))
      | none => .error .valueError
    | _ => .error .valueError
  else if s2eOutDir.isEmpty then .ok [projectS2eLast]
  else .ok s2eOutDir

/-- The per-module terminal state recorded by `LineCoverage.handle`:
either success (with the `.info` path logged by `logger.success`) or a
logged, swallowed failure. -/
inductive ModuleOutcome
  | success (infoPath : String)
  | failure (err : String)
deriving DecidableEq

/-- The body of the `for module_path, addr_counts in coverage.items()`
loop of `LineCoverage.handle` for one module: the outcome and the list
of files written (path and content).  `syms` abstracts
`SymbolManager.get_coverage` (an `Except.error` models a raised
exception) and `genHtml` abstracts `_gen_html`. -/
def processModule (syms : String → AddressCount → Bool →
      Except String (List (String × List (Nat × Nat))))
    (genHtml : String → String → Except String Unit)
    (onDisk : String → Bool) (doGenHtml includeCoveredOnly : Bool)
    (lcovOutDir : String) (p : String × AddressCount) :
    ModuleOutcome × List (String × String) :=
  match syms p.1 p.2 includeCoveredOnly with
  | .error e => (.failure e, [])
  | .ok fileLineInfo =>
    if doGenHtml then
      match genHtml (pyJoin lcovOutDir (pyBasename p.1 ++ ".info"))
          (pyJoin lcovOutDir (pyBasename p.1 ++ "_lcov")) with
      | .error e =>
        (.failure e,
         [(pyJoin lcovOutDir (pyBasename p.1 ++ ".info"),
           saveCoverageInfo onDisk doGenHtml fileLineInfo)])
      | .ok _ =>
        (.success (pyJoin lcovOutDir (pyBasename p.1 ++ ".info")),
         [(pyJoin lcovOutDir (pyBasename p.1 ++ ".info"),
           saveCoverageInfo onDisk doGenHtml fileLineInfo)])
    else
      (.success (pyJoin lcovOutDir (pyBasename p.1 ++ ".info")),
       [(pyJoin lcovOutDir (pyBasename p.1 ++ ".info"),
         saveCoverageInfo onDisk doGenHtml fileLineInfo)])

/-- The module loop of `LineCoverage.handle`: every module is attempted
in order; a failure is logged as its outcome and the loop continues. -/
def handleModules (syms : String → AddressCount → Bool →
      Except String (List (String × List (Nat × Nat))))
    (genHtml : String → String → Except String Unit)
    (onDisk : String → Bool) (doGenHtml includeCoveredOnly : Bool)
    (lcovOutDir : String) :
    ModuleCoverage → List (String × ModuleOutcome) × List (String × String)
  | [] => ([], [])
  | p :: rest =>
    ((p.1, (processModule syms genHtml onDisk doGenHtml includeCoveredOnly lcovOutDir p).1) ::
        (handleModules syms genHtml onDisk doGenHtml includeCoveredOnly lcovOutDir rest).1,
     (processModule syms genHtml onDisk doGenHtml includeCoveredOnly lcovOutDir p).2 ++
        (handleModules syms genHtml onDisk doGenHtml includeCoveredOnly lcovOutDir rest).2)

theorem dictGet_dictSet {K V : Type} [DecidableEq K] (d : List (K × V)) (k a : K) (v : V) :
    dictGet? (dictSet d k v) a = if k = a then some v else dictGet? d a := by
  induction d with
  | nil => simp [dictSet, dictGet?]
  | cons hd tl ih =>
    obtain ⟨k', v'⟩ := hd
    by_cases h1 : k' = k
    · subst h1
      simp only [dictSet, if_pos rfl, dictGet?]
      split_ifs <;> rfl
    · simp only [dictSet, if_neg h1, dictGet?]
      rw [ih]
      split_ifs <;> simp_all

theorem setRange_get (startAddr n : Nat) (ac : AddressCount) (a : Nat) :
    dictGet? (setRange ac startAddr n) a =
      if startAddr ≤ a ∧ a < startAddr + n then some 1 else dictGet? ac a := by
  induction n with
  | zero => rw [setRange, if_neg (by omega)]
  | succ m ih =>
    rw [setRange, dictGet_dictSet, ih]
    split_ifs <;> first | rfl | omega

theorem expandBlocks_get (blocks : List (Nat × Nat × Nat)) (ac : AddressCount) (a : Nat) :
    dictGet? (expandBlocks ac blocks) a =
      if ∃ b ∈ blocks, b.1 ≤ a ∧ a < b.1 + b.2.2 then some 1 else dictGet? ac a := by
  induction blocks generalizing ac with
  | nil => simp [expandBlocks]
  | cons b bs ih =>
    rw [expandBlocks, ih, setRange_get]
    by_cases hb : b.1 ≤ a ∧ a < b.1 + b.2.2
    · by_cases hbs : ∃ x ∈ bs, x.1 ≤ a ∧ a < x.1 + x.2.2
      · rw [if_pos hbs, if_pos ⟨b, List.mem_cons_self b bs, hb⟩]
      · rw [if_neg hbs, if_pos hb, if_pos ⟨b, List.mem_cons_self b bs, hb⟩]
    · by_cases hbs : ∃ x ∈ bs, x.1 ≤ a ∧ a < x.1 + x.2.2
      · obtain ⟨x, hx, hxc⟩ := hbs
        rw [if_pos ⟨x, hx, hxc⟩, if_pos ⟨x, List.mem_cons_of_mem b hx, hxc⟩]
      · rw [if_neg hbs, if_neg hb, if_neg]
        rintro ⟨x, hx, hxc⟩
        rcases List.mem_cons.mp hx with h | h
        · exact hb (h ▸ hxc)
        · exact hbs ⟨x, h, hxc⟩

/-- C3: the extractor's per-module local `addr_counts` maps exactly the
addresses `start + b` with `b < size` for some block entry, each with
execution count exactly 1 (overlapping blocks overwrite to 1, never
add); in particular a single entry `(start=100, size=4)` yields
`{100:1, 101:1, 102:1, 103:1}`. -/
theorem c3_extractor_per_byte (blocks : List (Nat × Nat × Nat)) (a : Nat) :
    dictGet? (addrCountsOf blocks) a =
      (if ∃ b ∈ blocks, b.1 ≤ a ∧ a < b.1 + b.2.2 then some 1 else none)
    ∧ addrCountsOf [(100, 0, 4)] = [(100, 1), (101, 1), (102, 1), (103, 1)] := by
  refine ⟨?_, by decide⟩
  rw [addrCountsOf, expandBlocks_get]
  rfl

/-- C1: evaluating `_merge_coverage` on an empty target shows that the
inserted entry does NOT keep the incoming counts: because the function
falls through after `coverage[module_name] = module_coverage`, the
incoming dict is merged into itself and every count is doubled. -/
theorem c1_merge_absent_doubles :
    mergeCoverage [] "m" [(100, 1), (101, 3)] = [("m", [(100, 2), (101, 6)])]
    ∧ mergeCoverage [] "m" [(100, 1), (101, 3)] ≠ [("m", [(100, 1), (101, 3)])] := by
  decide

/-- C2: evaluating the two merge orders of the spec's own example
(`A = 0`, `B = 1`, `C = 2`) shows the results differ — the first-merged
map's counts are doubled, so address `B` ends with count 7 in one order
and 8 in the other; merge order is observable. -/
theorem c2_merge_order_dependent :
    dictGet? (mergeCoverage (mergeCoverage [] "m" [(0, 1), (1, 2)]) "m" [(1, 3), (2, 1)]) "m"
      = some [(0, 2), (1, 7), (2, 1)]
    ∧ dictGet? (mergeCoverage (mergeCoverage [] "m" [(1, 3), (2, 1)]) "m" [(0, 1), (1, 2)]) "m"
      = some [(1, 8), (2, 2), (0, 1)]
    ∧ dictGet? [(0, 2), (1, 7), (2, 1)] 1 ≠ dictGet? [(1, 8), (2, 2), (0, 1)] 1 := by
  decide

theorem daLoop_spec (ls : List (Nat × Nat)) :
    daLoop ls = (ls.map fun p => "DA:" ++ toString p.1 ++ "," ++ toString p.2,
      ls.countP fun p => p.2 != 0, ls.length) := by
  induction ls with
  | nil => rfl
  | cons p rest ih =>
    rw [daLoop, ih]
    by_cases h : p.2 = 0 <;>
      simp [List.countP_cons, h, Nat.add_comm]

theorem writerBody_mem_record (onDisk : String → Bool) (im : Bool)
    (fli : List (String × List (Nat × Nat))) (f : String) (ls : List (Nat × Nat))
    (hmem : (f, ls) ∈ fli) (hemit : (im && !onDisk f) = false) :
    ∃ pre post, (writerBody onDisk im fli).1 = pre ++ fileRecordLines f ls ++ post := by
  induction fli with
  | nil => cases hmem
  | cons p rest ih =>
    rcases List.mem_cons.mp hmem with h | h
    · subst h
      rw [writerBody, if_neg (by simp [hemit])]
      exact ⟨[], (writerBody onDisk im rest).1, by simp⟩
    · obtain ⟨pre, post, hp⟩ := ih h
      rw [writerBody]
      by_cases hskip : (im && !onDisk p.1) = true
      · rw [if_pos hskip]
        exact ⟨pre, post, hp⟩
      · rw [if_neg hskip]
        refine ⟨fileRecordLines p.1 p.2 ++ pre, post, ?_⟩
        show fileRecordLines p.1 p.2 ++ (writerBody onDisk im rest).1 = _
        rw [hp]
        simp

/-- C4: for every emitted (non-skipped) source file, the writer emits a
contiguous record consisting of `SF:<path>`, one `DA:<line>,<count>`
per line in iteration order, `LH` equal to the number of lines with
non-zero count, `LF` equal to the total number of lines, and
`end_of_record`; in particular the spec's example yields exactly the
expected lines in order. -/
theorem c4_writer_record_format (onDisk : String → Bool) (im : Bool)
    (fli : List (String × List (Nat × Nat))) (f : String) (ls : List (Nat × Nat))
    (hmem : (f, ls) ∈ fli) (hemit : im = false ∨ onDisk f = true) :
    (∃ pre post, (saveCoverageFull onDisk im fli).1 = pre ++ fileRecordLines f ls ++ post)
    ∧ fileRecordLines f ls =
        ("SF:" ++ f) :: (ls.map fun p => "DA:" ++ toString p.1 ++ "," ++ toString p.2)
          ++ ["LH:" ++ toString (ls.countP fun p => p.2 != 0),
              "LF:" ++ toString ls.length, "end_of_record"]
    ∧ (saveCoverageFull (fun _ => true) false [("/a.c", [(10, 2), (11, 0), (12, 1)])]).1 =
        ["TN:", "SF:/a.c", "DA:10,2", "DA:11,0", "DA:12,1", "LH:2", "LF:3", "end_of_record"] := by
  refine ⟨?_, ?_, by decide⟩
  · have hb : (im && !onDisk f) = false := by
      rcases hemit with h | h <;> simp [h]
    obtain ⟨pre, post, hp⟩ := writerBody_mem_record onDisk im fli f ls hmem hb
    exact ⟨"TN:" :: pre, post, by rw [saveCoverageFull]; simp [hp]⟩
  · rw [fileRecordLines, daLoop_spec]

/-- Witness for C4 at the spec's example input. -/
theorem c4_writer_record_format_witness :
    ((("/a.c", [(10, 2), (11, 0), (12, 1)]) : String × List (Nat × Nat)) ∈
        ([("/a.c", [(10, 2), (11, 0), (12, 1)])] : List (String × List (Nat × Nat))))
    ∧ ((false = false) ∨ (fun (_ : String) => true) "/a.c" = true)
    ∧ ((∃ pre post, (saveCoverageFull (fun _ => true) false
            [("/a.c", [(10, 2), (11, 0), (12, 1)])]).1
          = pre ++ fileRecordLines "/a.c" [(10, 2), (11, 0), (12, 1)] ++ post)
       ∧ fileRecordLines "/a.c" [(10, 2), (11, 0), (12, 1)] =
          ("SF:" ++ "/a.c") ::
            ([(10, 2), (11, 0), (12, 1)].map fun p =>
              "DA:" ++ toString p.1 ++ "," ++ toString p.2)
            ++ ["LH:" ++ toString ([((10 : Nat), (2 : Nat)), (11, 0), (12, 1)].countP
                  fun p => p.2 != 0),
                "LF:" ++ toString ([((10 : Nat), (2 : Nat)), (11, 0), (12, 1)] :
                  List (Nat × Nat)).length, "end_of_record"]
       ∧ (saveCoverageFull (fun _ => true) false [("/a.c", [(10, 2), (11, 0), (12, 1)])]).1 =
          ["TN:", "SF:/a.c", "DA:10,2", "DA:11,0", "DA:12,1", "LH:2", "LF:3",
           "end_of_record"]) :=
  ⟨by decide, Or.inl rfl,
    c4_writer_record_format (fun _ => true) false [("/a.c", [(10, 2), (11, 0), (12, 1)])]
      "/a.c" [(10, 2), (11, 0), (12, 1)] (by decide) (Or.inl rfl)⟩

theorem writerBody_skip_spec (onDisk : String → Bool)
    (fli : List (String × List (Nat × Nat))) :
    (writerBody onDisk true fli).1 = (writerBody onDisk true (fli.filter fun p => onDisk p.1)).1
    ∧ (writerBody onDisk true fli).2
      = (fli.filter fun p => !onDisk p.1).map fun p => p.1 ++ " does not exist, skipping" := by
  induction fli with
  | nil => exact ⟨rfl, rfl⟩
  | cons p rest ih =>
    by_cases h : onDisk p.1 = true <;>
      simp [writerBody, List.filter_cons, h, ih.1, ih.2]

/-- C7: with `ignore_missing_files = true`, a source file missing from
disk has its entire record omitted — the output equals the output over
only the existing files, which are emitted normally — and exactly one
"does not exist, skipping" warning is logged per missing file; the
writer is a total function, so no exception arises from skipping. -/
theorem c7_skip_missing_files (onDisk : String → Bool)
    (fli : List (String × List (Nat × Nat))) :
    saveCoverageInfo onDisk true fli
      = saveCoverageInfo onDisk true (fli.filter fun p => onDisk p.1)
    ∧ (saveCoverageFull onDisk true fli).2
      = (fli.filter fun p => !onDisk p.1).map fun p => p.1 ++ " does not exist, skipping" := by
  refine ⟨?_, (writerBody_skip_spec onDisk fli).2⟩
  rw [saveCoverageInfo, saveCoverageInfo, saveCoverageFull, saveCoverageFull,
    (writerBody_skip_spec onDisk fli).1]

theorem ne_TN_of_head (s : String) (h : s.data.head? ≠ some 'T') : s ≠ "TN:" :=
  fun he => h (by rw [he]; rfl)

theorem fileRecordLines_ne_TN (f : String) (ls : List (Nat × Nat)) :
    ∀ l ∈ fileRecordLines f ls, l ≠ "TN:" := by
  intro l hl
  rw [fileRecordLines] at hl
  simp only [List.mem_cons, List.mem_append, daLoop_spec, List.mem_map,
    List.mem_singleton, List.not_mem_nil, or_false] at hl
  rcases hl with (h | ⟨p, _, h⟩) | h | h | h
  · subst h
    apply ne_TN_of_head
    have e : ("SF:" ++ f).data.head? = some 'S' := by rw [String.data_append]; rfl
    rw [e]; decide
  · subst h
    apply ne_TN_of_head
    have e : ("DA:" ++ toString p.1 ++ "," ++ toString p.2).data.head? = some 'D' := by
      rw [String.data_append, String.data_append, String.data_append]; rfl
    rw [e]; decide
  · subst h
    apply ne_TN_of_head
    have e : ("LH:" ++ toString (ls.countP fun p => p.2 != 0)).data.head? = some 'L' := by
      rw [String.data_append]; rfl
    rw [e]; decide
  · subst h
    apply ne_TN_of_head
    have e : ("LF:" ++ toString ls.length).data.head? = some 'L' := by
      rw [String.data_append]; rfl
    rw [e]; decide
  · subst h; decide

theorem writerBody_lines_mem (onDisk : String → Bool) (im : Bool)
    (fli : List (String × List (Nat × Nat))) (l : String)
    (hl : l ∈ (writerBody onDisk im fli).1) :
    ∃ p ∈ fli, l ∈ fileRecordLines p.1 p.2 := by
  induction fli with
  | nil => cases hl
  | cons p rest ih =>
    rw [writerBody] at hl
    by_cases h : (im && !onDisk p.1) = true
    · rw [if_pos h] at hl
      obtain ⟨q, hq, hql⟩ := ih hl
      exact ⟨q, List.mem_cons_of_mem p hq, hql⟩
    · rw [if_neg h] at hl
      rcases List.mem_append.mp hl with h1 | h2
      · exact ⟨p, List.mem_cons_self p rest, h1⟩
      · obtain ⟨q, hq, hql⟩ := ih h2
        exact ⟨q, List.mem_cons_of_mem p hq, hql⟩

/-- C9 (amended): the writer emits exactly one `TN:` line, written once
at the start of the output before the per-file loop, regardless of how
many file records follow; records do not begin with their own `TN:`. -/
theorem c9_single_leading_tn (onDisk : String → Bool) (im : Bool)
    (fli : List (String × List (Nat × Nat))) :
    ((saveCoverageFull onDisk im fli).1.countP fun l => l == "TN:") = 1 := by
  rw [saveCoverageFull]
  show (("TN:" :: (writerBody onDisk im fli).1).countP fun l => l == "TN:") = 1
  rw [List.countP_cons]
  have h0 : ((writerBody onDisk im fli).1.countP fun l => l == "TN:") = 0 := by
    rw [List.countP_eq_zero]
    intro l hl
    obtain ⟨p, _, hrec⟩ := writerBody_lines_mem onDisk im fli l hl
    simpa using fileRecordLines_ne_TN p.1 p.2 l hrec
  rw [h0]
  decide

/-- C9 counterexample: for two emitted records the output has exactly
one `TN:` line (written once before the loop), not one per record —
the `TN:` line count is 1 while the record count is 2. -/
theorem c9_tn_per_record_counterexample :
    (saveCoverageFull (fun _ => true) false [("/a.c", [(1, 1)]), ("/b.c", [(2, 0)])]).1 =
      ["TN:", "SF:/a.c", "DA:1,1", "LH:1", "LF:1", "end_of_record",
       "SF:/b.c", "DA:2,0", "LH:0", "LF:1", "end_of_record"]
    ∧ ((saveCoverageFull (fun _ => true) false
        [("/a.c", [(1, 1)]), ("/b.c", [(2, 0)])]).1.countP fun l => l == "TN:") = 1
    ∧ ((saveCoverageFull (fun _ => true) false
        [("/a.c", [(1, 1)]), ("/b.c", [(2, 0)])]).1.countP
          fun l => isPfx "SF:".data l.data) = 2
    ∧ (1 : Nat) ≠ 2 := by
  decide

theorem writerBody_all_missing (onDisk : String → Bool)
    (fli : List (String × List (Nat × Nat)))
    (h : ∀ p ∈ fli, onDisk p.1 = false) :
    (writerBody onDisk true fli).1 = [] := by
  induction fli with
  | nil => rfl
  | cons p rest ih =>
    rw [writerBody, if_pos (by simp [h p (List.mem_cons_self p rest)])]
    exact ih fun q hq => h q (List.mem_cons_of_mem p hq)

/-- C10: for the empty map — and likewise whenever `ignore_missing_files`
causes every file to be skipped — the written content is exactly the
single line `TN:` followed by a newline, and the writer (a total
function) raises nothing. -/
theorem c10_empty_coverage_output (onDisk : String → Bool)
    (fli : List (String × List (Nat × Nat)))
    (h : ∀ p ∈ fli, onDisk p.1 = false) :
    saveCoverageInfo onDisk true fli = "TN:\n"
    ∧ ∀ (onDisk2 : String → Bool) (im : Bool), saveCoverageInfo onDisk2 im [] = "TN:\n" := by
  constructor
  · rw [saveCoverageInfo, saveCoverageFull, writerBody_all_missing onDisk fli h]
    rfl
  · intro onDisk2 im
    rfl

/-- Witness for C10: a single missing file is skipped and the output is
exactly the `TN:` line. -/
theorem c10_empty_coverage_output_witness :
    (∀ p ∈ ([("/a.c", [(1, 2)])] : List (String × List (Nat × Nat))),
      (fun (_ : String) => false) p.1 = false)
    ∧ (saveCoverageInfo (fun _ => false) true [("/a.c", [(1, 2)])] = "TN:\n"
       ∧ ∀ (onDisk2 : String → Bool) (im : Bool), saveCoverageInfo onDisk2 im [] = "TN:\n") :=
  ⟨by decide, c10_empty_coverage_output (fun _ => false) [("/a.c", [(1, 2)])] (by decide)⟩

theorem lastNLoop_eq_filter (onDisk : String → Bool) (dirname : String) (idx : Int)
    (ret : List String) (l : List Nat) :
    lastNLoop onDisk dirname idx ret l =
      ret ++ (l.map fun i =>
        pyJoin dirname ("s2e-out-" ++ toString (idx - (i : Int)))).filter onDisk := by
  induction l generalizing ret with
  | nil => simp [lastNLoop]
  | cons i rest ih =>
    rw [lastNLoop, ih]
    by_cases h : onDisk (pyJoin dirname ("s2e-out-" ++ toString (idx - (i : Int)))) = true <;>
      simp [List.filter_cons, h]

/-- C5: in last-N mode with the canonical most-recent path resolving to
`s2e-out-<index>`, the run selector returns exactly the candidate paths
`s2e-out-<index>`, `s2e-out-<index-1>`, ..., `s2e-out-<index-N+1>` that
exist on disk, preserving their strictly descending generation order. -/
theorem c5_last_n_selection (onDisk : String → Bool) (n : Nat) (dirs : List String)
    (s2eLastReal proj istr : String) (idx : Nat)
    (hn : n ≠ 0)
    (hbase : pySplit (pyBasename s2eLastReal) '-' = ["s2e", "out", istr])
    (hidx : pyInt? istr = some idx) :
    getOutputFolders onDisk n dirs s2eLastReal proj =
      .ok (((List.range n).map fun i =>
        pyJoin (pyDirname s2eLastReal)
          ("s2e-out-" ++ toString ((idx : Int) - (i : Int)))).filter onDisk) := by
  rw [getOutputFolders, if_pos hn, hbase]
  simp only [hidx, lastNLoop_eq_filter, List.nil_append]

/-- Witness for C5: the spec's example, `N = 3`, canonical path
`/proj/s2e-out-10`, with only indices 10, 9 and 7 existing on disk:
the selector returns `[/proj/s2e-out-10, /proj/s2e-out-9]`. -/
theorem c5_last_n_selection_witness :
    ((3 : Nat) ≠ 0)
    ∧ pySplit (pyBasename "/proj/s2e-out-10") '-' = ["s2e", "out", "10"]
    ∧ pyInt? "10" = some 10
    ∧ getOutputFolders
        (fun s => s == "/proj/s2e-out-10" || s == "/proj/s2e-out-9" || s == "/proj/s2e-out-7")
        3 [] "/proj/s2e-out-10" "unused"
      = .ok ["/proj/s2e-out-10", "/proj/s2e-out-9"] :=
  ⟨by decide, by decide, by decide,
    (c5_last_n_selection
      (fun s => s == "/proj/s2e-out-10" || s == "/proj/s2e-out-9" || s == "/proj/s2e-out-7")
      3 [] "/proj/s2e-out-10" "unused" "10" 10 (by decide) (by decide) (by decide)).trans
      (congrArg Except.ok (by decide))⟩

/-- C8 counterexample: with canonical basename `s2e-out` (two
dash-separated components) and last-N mode requested, the selector
fails with a `ValueError` from the tuple unpacking — not with the
`ConfigurationError` the claim names (the code defines no such
error). -/
theorem c8_valueerror_not_configurationerror :
    getOutputFolders (fun _ => true) 3 [] "/proj/s2e-out" "unused" = .error .valueError
    ∧ PyErr.valueError ≠ PyErr.configurationError :=
  ⟨rfl, by decide⟩

/-- C8 (amended): when last-N mode is requested and the canonical
path's basename does not split into exactly three dash-separated
components, the selector fails with an unhandled `ValueError` (not a
`ConfigurationError`), and it does so before any processing of run
directories — the result is independent of the disk state and of the
other options. -/
theorem c8_malformed_basename_fails (onDisk onDisk2 : String → Bool) (n : Nat)
    (dirs dirs2 : List String) (p proj proj2 : String)
    (hn : n ≠ 0)
    (hsplit : (pySplit (pyBasename p) '-').length ≠ 3) :
    getOutputFolders onDisk n dirs p proj = .error .valueError
    ∧ getOutputFolders onDisk n dirs p proj = getOutputFolders onDisk2 n dirs2 p proj2 := by
  have key : ∀ (od : String → Bool) (ds : List String) (pr : String),
      getOutputFolders od n ds p pr = .error .valueError := by
    intro od ds pr
    rw [getOutputFolders, if_pos hn]
    revert hsplit
    generalize pySplit (pyBasename p) '-' = l
    rcases l with _ | ⟨a, _ | ⟨b, _ | ⟨c, _ | ⟨d, t⟩⟩⟩⟩ <;> intro hsplit <;>
      first
        | rfl
        | simp at hsplit
  exact ⟨key onDisk dirs proj, (key onDisk dirs proj).trans (key onDisk2 dirs2 proj2).symm⟩

/-- Witness for C8 (amended) at basename `s2e-out`. -/
theorem c8_malformed_basename_fails_witness :
    ((3 : Nat) ≠ 0)
    ∧ (pySplit (pyBasename "/proj/s2e-out") '-').length ≠ 3
    ∧ (getOutputFolders (fun _ => true) 3 [] "/proj/s2e-out" "a" = .error .valueError
       ∧ getOutputFolders (fun _ => true) 3 [] "/proj/s2e-out" "a"
          = getOutputFolders (fun _ => false) 3 ["x"] "/proj/s2e-out" "b") :=
  ⟨by decide, by decide,
    c8_malformed_basename_fails (fun _ => true) (fun _ => false) 3 [] ["x"]
      "/proj/s2e-out" "a" "b" (by decide) (by decide)⟩

theorem processModule_files (syms : String → AddressCount → Bool →
      Except String (List (String × List (Nat × Nat))))
    (genHtml : String → String → Except String Unit)
    (onDisk : String → Bool) (doGenHtml includeCoveredOnly : Bool)
    (lcovOutDir : String) (p : String × AddressCount)
    (fli : List (String × List (Nat × Nat)))
    (h : syms p.1 p.2 includeCoveredOnly = .ok fli) :
    (processModule syms genHtml onDisk doGenHtml includeCoveredOnly lcovOutDir p).2 =
      [(pyJoin lcovOutDir (pyBasename p.1 ++ ".info"),
        saveCoverageInfo onDisk doGenHtml fli)] := by
  rw [processModule, h]
  cases doGenHtml with
  | false => rfl
  | true =>
    cases genHtml (pyJoin lcovOutDir (pyBasename p.1 ++ ".info"))
        (pyJoin lcovOutDir (pyBasename p.1 ++ "_lcov")) <;> rfl

/-- C6: the orchestrator attempts every module — the recorded outcomes
cover exactly the modules in order — and a module whose symbol
resolution succeeds has its `.info` file written with the expected
content regardless of exceptions raised for any other module (an
`Except.error` from `syms` models a raised exception, which is caught,
logged as that module's failure outcome, and does not stop the loop). -/
theorem c6_module_failure_isolation (syms : String → AddressCount → Bool →
      Except String (List (String × List (Nat × Nat))))
    (genHtml : String → String → Except String Unit)
    (onDisk : String → Bool) (doGenHtml includeCoveredOnly : Bool)
    (lcovOutDir : String) (modules : ModuleCoverage) :
    ((handleModules syms genHtml onDisk doGenHtml includeCoveredOnly lcovOutDir
        modules).1.map Prod.fst = modules.map Prod.fst)
    ∧ ∀ p ∈ modules, ∀ fli, syms p.1 p.2 includeCoveredOnly = .ok fli →
        (pyJoin lcovOutDir (pyBasename p.1 ++ ".info"),
          saveCoverageInfo onDisk doGenHtml fli) ∈
          (handleModules syms genHtml onDisk doGenHtml includeCoveredOnly lcovOutDir
            modules).2 := by
  induction modules with
  | nil => exact ⟨rfl, by intro p hp; cases hp⟩
  | cons q rest ih =>
    constructor
    · rw [handleModules]
      show q.1 :: _ = q.1 :: _
      rw [ih.1]
    · intro p hp fli hfli
      rw [handleModules]
      rcases List.mem_cons.mp hp with h | h
      · subst h
        apply List.mem_append_left
        rw [processModule_files syms genHtml onDisk doGenHtml includeCoveredOnly
          lcovOutDir p fli hfli]
        exact List.mem_singleton.mpr rfl
      · exact List.mem_append_right _ (ih.2 p h fli hfli)

/-- Helper symbol resolver for the C6 witness: raises on `/bad`,
succeeds on every other module. -/
def wSyms (m : String) (_ : AddressCount) (_ : Bool) :
    Except String (List (String × List (Nat × Nat))) :=
  if m == "/bad" then .error "boom" else .ok [("/a.c", [(1, 1)])]

/-- Witness for C6: two modules, the first raising in symbol
resolution; the second still has its `.info` file written. -/
theorem c6_module_failure_isolation_witness :
    ((("/bin/good", [(0, 1)]) : String × AddressCount) ∈
        ([("/bad", [(0, 1)]), ("/bin/good", [(0, 1)])] : ModuleCoverage))
    ∧ wSyms "/bin/good" [(0, 1)] false = .ok [("/a.c", [(1, 1)])]
    ∧ (pyJoin "/out" (pyBasename "/bin/good" ++ ".info"),
        saveCoverageInfo (fun _ => true) false [("/a.c", [(1, 1)])]) ∈
        (handleModules wSyms (fun _ _ => .ok ()) (fun _ => true) false false "/out"
          [("/bad", [(0, 1)]), ("/bin/good", [(0, 1)])]).2 :=
  ⟨by decide, rfl,
    (c6_module_failure_isolation wSyms (fun _ _ => .ok ()) (fun _ => true) false false
      "/out" [("/bad", [(0, 1)]), ("/bin/good", [(0, 1)])]).2
      ("/bin/good", [(0, 1)]) (by decide) [("/a.c", [(1, 1)])] rfl⟩

/-- Witness for C3: the spec's example block, queried at address 102. -/
theorem c3_extractor_per_byte_witness :
    dictGet? (addrCountsOf [(100, 0, 4)]) 102 =
      (if ∃ b ∈ ([(100, 0, 4)] : List (Nat × Nat × Nat)),
        b.1 ≤ 102 ∧ 102 < b.1 + b.2.2 then some 1 else none)
    ∧ addrCountsOf [(100, 0, 4)] = [(100, 1), (101, 1), (102, 1), (103, 1)] :=
  c3_extractor_per_byte [(100, 0, 4)] 102

/-- Witness for C7: one existing and one missing file. -/
theorem c7_skip_missing_files_witness :
    saveCoverageInfo (fun s => s == "/a.c") true [("/a.c", [(1, 1)]), ("/missing.c", [(2, 2)])]
      = saveCoverageInfo (fun s => s == "/a.c")
          true ([("/a.c", [(1, 1)]), ("/missing.c", [(2, 2)])].filter fun p =>
            (fun s => s == "/a.c") p.1)
    ∧ (saveCoverageFull (fun s => s == "/a.c") true
        [("/a.c", [(1, 1)]), ("/missing.c", [(2, 2)])]).2
      = ([("/a.c", [(1, 1)]), ("/missing.c", [(2, 2)])].filter fun p =>
          !(fun s => s == "/a.c") p.1).map fun p => p.1 ++ " does not exist, skipping" :=
  c7_skip_missing_files (fun s => s == "/a.c") [("/a.c", [(1, 1)]), ("/missing.c", [(2, 2)])]

/-- Witness for the amended C9 at a two-record input. -/
theorem c9_single_leading_tn_witness :
    ((saveCoverageFull (fun _ => true) false
      [("/a.c", [(1, 1)]), ("/b.c", [])]).1.countP fun l => l == "TN:") = 1 :=
  c9_single_leading_tn (fun _ => true) false [("/a.c", [(1, 1)]), ("/b.c", [])]

end LcovSpec
